import Mathlib

/-!
Verification of the ERA5 download tool (`e5tool.py`).

The development shallowly embeds the parts of the program that the checked
properties are about:

* the leap-year and completeness arithmetic (`hours_in_year`,
  `download_is_complete`),
* the fetch orchestrator (`download_era5`) as a producer of a trace of
  check / job / barrier events,
* the per-job materialization steps of `download_era5_year` as a trace of
  filesystem states,
* the CSV assembly loop of `create_csv` (per-year hourly grid and the
  per-variable offset alignment),
* the grid snapping of `main`.

Python datetimes are modelled at whole-second precision (a calendar year plus
seconds since Jan 1 00:00 UTC of that year); machine floats on the touched
code paths hold exact integral or rational values, so rationals embed them
faithfully on the regimes the theorems cover.
-/

set_option autoImplicit false

deriving instance DecidableEq for Except

namespace E5Tool

/-- Leap-year test of `hours_in_year` (src/e5tool.py line 115):
`(year % 4 == 0 and year % 100 != 0) or (year % 400 == 0)`.
Lean's `%` on `ℤ` yields a result in `[0, n)` for positive `n`, like Python. -/
def isLeap (year : ℤ) : Bool :=
  (year % 4 == 0 && year % 100 != 0) || (year % 400 == 0)

/-- Embeds `hours_in_year` (lines 114-116): `24 * 366 if is_leap else 24 * 365`. -/
def hours_in_year (year : ℤ) : ℕ :=
  if isLeap year then 24 * 366 else 24 * 365

/-- A timezone-aware UTC datetime at whole-second precision: the calendar year
together with the seconds elapsed since Jan 1 00:00 UTC of that year, so that
`(dt - datetime(dt.year, 1, 1)).total_seconds() = secOfYear`. -/
structure UtcTime where
  year : ℤ
  secOfYear : ℕ
  deriving DecidableEq

/-- Chronological order of Python datetimes in this representation. -/
def UtcTime.le (a b : UtcTime) : Prop :=
  a.year < b.year ∨ (a.year = b.year ∧ a.secOfYear ≤ b.secOfYear)

instance (a b : UtcTime) : Decidable (UtcTime.le a b) := by
  unfold UtcTime.le; infer_instance

/-- A datetime is valid when its second count falls inside its own calendar
year (every real Python datetime satisfies this). -/
def UtcTime.valid (d : UtcTime) : Prop :=
  d.secOfYear < 3600 * hours_in_year d.year

instance (d : UtcTime) : Decidable (UtcTime.valid d) := by
  unfold UtcTime.valid; infer_instance

/-- A stored netCDF file, reduced to the parts the tool reads: the
`valid_time` axis (epoch seconds of each hourly sample), the stored
single variable's values at the one grid point `[·][0][0]` (each file holds one
data variable after stripping), and the file's size in bytes. -/
structure NcFile where
  valid_time : List ℤ
  data : List ℚ
  size : ℕ
  deriving DecidableEq

/-- A directory entry: either a file `netCDF4.Dataset` can open, or an
existing file that raises `OSError` on open, with its byte size. -/
inductive Entry where
  | ok (f : NcFile)
  | corrupt (size : ℕ)
  deriving DecidableEq

/-- Byte size as returned by `os.path.getsize`. -/
def Entry.bytes : Entry → ℕ
  | .ok f => f.size
  | .corrupt s => s

/-- The on-disk state: a map from pathname to entry. -/
abbrev FileStore := List (String × Entry)

/-- A fatal termination: the printed diagnostic and the process exit status. -/
structure Fatal where
  msg : String
  code : ℤ
  deriving DecidableEq

/-- Sample count the completeness check compares against (lines 130-137): for
the cutoff's own year, `(dt_end - jan1).total_seconds() // 3600`, i.e. floor
division of the seconds into the year; otherwise `hours_in_year year`. -/
def expectedHours (year : ℤ) (dtEnd : UtcTime) : ℕ :=
  if year = dtEnd.year then dtEnd.secOfYear / 3600 else hours_in_year year

/-- Embeds `download_is_complete` (lines 119-139).  `num_hours` is
`len(ads['valid_time'])`.  A missing or unopenable path raises `OSError`,
which the source catches, prints a diagnostic for, and turns into `exit(-1)`;
the `\n{err}` detail appended to the printed message is omitted here. -/
def download_is_complete (store : FileStore) (ncFilename : String) (year : ℤ)
    (dtEnd : UtcTime) : Except Fatal Bool :=
  match store.lookup ncFilename with
  | some (.ok f) => .ok (decide (f.valid_time.length ≥ expectedHours year dtEnd))
  | _ => .error ⟨"Existing output " ++ ncFilename ++ " could not be opened!", -1⟩

/-- Embeds `e5_var_filename` (lines 63-65): `f'{e5_var}_{year}.nc'`. -/
def e5_var_filename (e5Var : String) (year : ℤ) : String :=
  e5Var ++ "_" ++ toString year ++ ".nc"

/-- The canonical per-variable destination path `f'{loc_path}/{fname}'`
(lines 192, 247, 272). -/
def destPath (locPath e5Var : String) (year : ℤ) : String :=
  locPath ++ "/" ++ e5_var_filename e5Var year

/-- Embeds `open_nc_ro` (lines 270-279): open read-only, print a diagnostic and
`exit(-1)` when the path is missing or unreadable. -/
def open_nc_ro (store : FileStore) (locPath e5Var : String) (year : ℤ) :
    Except Fatal NcFile :=
  match store.lookup (destPath locPath e5Var year) with
  | some (.ok f) => .ok f
  | _ => .error
      ⟨"Existing output " ++ destPath locPath e5Var year ++ " could not be opened!", -1⟩

/-! Spec-side definitions, written from the claims' wording, for refinement
comparisons against the code-side definitions above. -/

/-- Proleptic-Gregorian leap rule as the spec words it:
`div4 and (not div100 or div400)`. -/
def leapRuleSpec (year : ℤ) : Prop :=
  4 ∣ year ∧ (¬(100 : ℤ) ∣ year ∨ (400 : ℤ) ∣ year)

instance (year : ℤ) : Decidable (leapRuleSpec year) := by
  unfold leapRuleSpec; infer_instance

/-- Expected sample count as the spec words it: `floor(hours between
Jan-1-00:00(year) and cutoff)` when `year` is the cutoff's year, else
`24 * 366` for a leap year and `24 * 365` otherwise. -/
def expectedSpec (year : ℤ) (cutoff : UtcTime) : ℤ :=
  if year = cutoff.year then ⌊(cutoff.secOfYear : ℚ) / 3600⌋
  else if leapRuleSpec year then 24 * 366 else 24 * 365

/-! Calendar arithmetic: epoch seconds of Jan 1 00:00 UTC of a year, as
Python's proleptic-Gregorian `datetime` computes it. -/

/-- Proleptic-Gregorian leap days before year `y`, counted from year 0:
`(y-1)/4 - (y-1)/100 + (y-1)/400` with floor division (`ℤ` division is floor
division for positive divisors, like Python's `//`). -/
def leapDaysBefore (y : ℤ) : ℤ :=
  (y - 1) / 4 - (y - 1) / 100 + (y - 1) / 400

/-- Days from the Unix epoch (Jan 1 1970) to Jan 1 00:00 of year `y`. -/
def daysToJan1 (y : ℤ) : ℤ :=
  365 * (y - 1970) + (leapDaysBefore y - leapDaysBefore 1970)

/-- Epoch seconds of `datetime(y, 1, 1, tzinfo=timezone.utc)`. -/
def jan1Epoch (y : ℤ) : ℤ := 86400 * daysToJan1 y

/-! Embedding of the CSV assembly loop of `create_csv` (lines 283-379). -/

/-- Fuel-bounded unfolding of the per-year
`while this_hour_dt <= end_hour_dt` loop of `create_csv` (line 348),
collecting each iteration's timestamp (epoch seconds); the loop steps by
`timedelta(hours=1)`. -/
def hourLoopAux (stop : ℤ) : ℕ → ℤ → List ℤ
  | 0, _ => []
  | fuel + 1, t => if t ≤ stop then t :: hourLoopAux stop fuel (t + 3600) else []

/-- Number of iterations the loop performs starting at `t`. -/
def hourIters (t stop : ℤ) : ℕ :=
  if t ≤ stop then (stop - t).toNat / 3600 + 1 else 0

/-- Hourly timestamps from `start` through `stop` inclusive. -/
def hourLoop (start stop : ℤ) : List ℤ :=
  hourLoopAux stop (hourIters start stop) start

/-- Offset of a file into its year's hourly grid (lines 313-318):
`(first_sample_datetime - jan1) / timedelta(hours=1)` as an exact rational
(`valid_time[0]` is the first sample's epoch seconds; `headD` models that
read, and `openPhase` rejects the empty axis the source would crash on). -/
def fileOffset (f : NcFile) (year : ℤ) : ℚ :=
  ((f.valid_time.headD 0 : ℚ) - (jan1Epoch year : ℚ)) / 3600

/-- Embeds the per-year file-opening loop of `create_csv` (lines 307-330):
open each variable's file via `open_nc_ro` and pair it with its hour offset.
Reading `valid_time[0]` of an empty axis raises an uncaught `IndexError`
(exit status 1), modelled as a `Fatal`. -/
def openPhase (store : FileStore) (locPath : String) (year : ℤ) :
    List String → Except Fatal (List (NcFile × ℚ))
  | [] => .ok []
  | v :: rest => do
    let f ← open_nc_ro store locPath v year
    if f.valid_time = [] then
      .error ⟨"IndexError: index 0 is out of bounds", 1⟩
    else
      let tail ← openPhase store locPath year rest
      .ok ((f, fileOffset f year) :: tail)

/-- Per-variable value of one grid hour (lines 354-366): with
`rds_hour_idx = hour_idx - offset`, the sample at that index is emitted when
`0 <= rds_hour_idx < len(valid_time)`, and the null sentinel otherwise.
`Rat.floor` recovers the read index; on the whole-hour offsets the theorems
cover, `rds_hour_idx` is exactly integral, so no rounding is introduced. -/
def emitVal (p : NcFile × ℚ) (h : ℕ) : Option ℚ :=
  let idx : ℚ := (h : ℚ) - p.2
  if 0 ≤ idx ∧ idx < (p.1.valid_time.length : ℚ) then
    some (p.1.data.getD (Rat.floor idx).toNat 0)
  else none

/-- Embeds the per-year row loop of `create_csv` (lines 345-370): one row per
wall-clock hour from Jan 1 00:00 through Dec 31 23:00 (one hour before Jan 1
of the next year), each row carrying the timestamp and one optional value per
variable file. -/
def rowsFromFiles (year : ℤ) (fo : List (NcFile × ℚ)) :
    List (ℤ × List (Option ℚ)) :=
  ((hourLoop (jan1Epoch year) (jan1Epoch (year + 1) - 3600)).enum).map
    (fun it => (it.2, fo.map (fun p => emitVal p it.1)))

/-- One year of `create_csv`: open all the year's files, then produce its
rows. -/
def csvYearRecords (store : FileStore) (locPath : String)
    (e5Vars : List String) (year : ℤ) :
    Except Fatal (List (ℤ × List (Option ℚ))) :=
  (openPhase store locPath year e5Vars).map (rowsFromFiles year)

/-- Embeds `ERA5_START_YR` (line 39). -/
def ERA5_START_YR : ℤ := 1940

/-- Year list `range(ERA5_START_YR, end_year + 1)` (lines 243, 301). -/
def yearsAsc (endYear : ℤ) : List ℤ :=
  (List.range (endYear - ERA5_START_YR + 1).toNat).map
    (fun i : ℕ => ERA5_START_YR + (i : ℤ))

/-- Per-year driver loop of `create_csv` over an explicit year list. -/
def createCsvYears (store : FileStore) (locPath : String)
    (e5Vars : List String) : List ℤ → Except Fatal (List (ℤ × List (Option ℚ)))
  | [] => .ok []
  | y :: rest => do
    let rows ← csvYearRecords store locPath e5Vars y
    let tail ← createCsvYears store locPath e5Vars rest
    .ok (rows ++ tail)

/-- Embeds `create_csv` (lines 283-379) as the concatenated data rows over
all years from `ERA5_START_YR` through `end_year` (the header line and the
textual formatting of values are not modelled). -/
def create_csv (store : FileStore) (locPath : String) (e5Vars : List String)
    (endYear : ℤ) : Except Fatal (List (ℤ × List (Option ℚ))) :=
  createCsvYears store locPath e5Vars (yearsAsc endYear)

/-! Embedding of the fetch orchestrator `download_era5` (lines 233-266) as a
producer of a trace of observable events. -/

/-- Observable events of the fetch phase: a completeness consultation of a
path, the enqueueing of a fetch job (a `download_era5_year` future, line 258)
carrying the outstanding variable list and a year, and the per-variable
barrier that waits on all of the pass's futures (line 263). -/
inductive Event where
  | check (path : String)
  | job (vars : List String) (year : ℤ)
  | barrier (v : String)
  deriving DecidableEq

/-- The existence-and-size gate of line 251:
`os.path.isfile(p) and os.path.getsize(p) > 500`. -/
def fileGate (store : FileStore) (p : String) : Bool :=
  match store.lookup p with
  | some e => decide (e.bytes > 500)
  | none => false

/-- One year of the `download_era5` inner loop (lines 244-260): the
completeness check runs only behind the gate; complete years are skipped;
otherwise a job carrying the outstanding variable list `todl` is enqueued. -/
def processYear (store : FileStore) (locPath : String) (todl : List String)
    (v : String) (year : ℤ) (dtEnd : UtcTime) : Except Fatal (List Event) :=
  if fileGate store (destPath locPath v year) then
    match download_is_complete store (destPath locPath v year) year dtEnd with
    | .error e => .error e
    | .ok true => .ok [.check (destPath locPath v year)]
    | .ok false => .ok [.check (destPath locPath v year), .job todl year]
  else
    .ok [.job todl year]

/-- The inner year loop over a year list (most recent first, line 244). -/
def processYears (store : FileStore) (locPath : String) (todl : List String)
    (v : String) (dtEnd : UtcTime) : List ℤ → Except Fatal (List Event)
  | [] => .ok []
  | y :: rest => do
    let evs ← processYear store locPath todl v y dtEnd
    let tail ← processYears store locPath todl v dtEnd rest
    .ok (evs ++ tail)

/-- The per-variable passes of `download_era5` (lines 239-266): `todl` is
`e5_vars_todownload`, the second list holds the remaining iterations of the
`for e5_var` loop.  Each pass processes all years, waits on its futures (the
barrier), then removes its gating variable from `todl` (`list.remove` drops
the first occurrence of the value, which `List.erase` models). -/
def downloadPasses (store : FileStore) (locPath : String) (dtEnd : UtcTime) :
    List String → List String → Except Fatal (List Event)
  | _, [] => .ok []
  | todl, v :: rest => do
    let evs ← processYears store locPath todl v dtEnd (yearsAsc dtEnd.year).reverse
    let tail ← downloadPasses store locPath dtEnd (todl.erase v) rest
    .ok (evs ++ [.barrier v] ++ tail)

/-- Embeds `download_era5` (lines 233-266): `e5_vars_todownload` starts as a
copy of the requested list. -/
def download_era5 (store : FileStore) (locPath : String)
    (e5Vars : List String) (dtEnd : UtcTime) : Except Fatal (List Event) :=
  downloadPasses store locPath dtEnd e5Vars e5Vars

/-! Embedding of the materialization steps of one fetch job
(`download_era5_year`, lines 169-230, and `strip_era5_vars`, lines 143-166)
as a trace of filesystem states. -/

/-- The pathnames one fetch job touches, with their identities explicit: the
canonical per-variable file `{loc_path}/{var}_{year}.nc`, the combined
download temporary `dest_filename + '.tempdl'` (line 216, suffixed onto
variable 0's canonical path), and the strip temporary
`nc_filename + '.tempxds'` (line 158). -/
inductive DlPath where
  | canonical (v : String) (year : ℤ)
  | tempdl (v0 : String) (year : ℤ)
  | tempxds (v : String) (year : ℤ)
  deriving DecidableEq

/-- Contents a job can write: the combined multi-variable download, or a
stripped single-variable file. -/
inductive DlContent where
  | combined (vars : List String)
  | single (v : String)
  deriving DecidableEq

/-- Filesystem state of the job's directory. -/
def DlFS : Type := DlPath → Option DlContent

/-- Write (create or overwrite) a file. -/
def fsSet (p : DlPath) (c : DlContent) (fs : DlFS) : DlFS :=
  fun q => if q = p then some c else fs q

/-- Delete a file (`os.remove`). -/
def fsRemove (p : DlPath) (fs : DlFS) : DlFS :=
  fun q => if q = p then none else fs q

/-- Rename (`os.rename(src, dst)`): `dst` takes `src`'s content atomically,
`src` disappears. -/
def fsRename (src dst : DlPath) (fs : DlFS) : DlFS :=
  fun q => if q = dst then fs src else if q = src then none else fs q

/-- The strip loop of `download_era5_year` (lines 221-227): for each variable
in order, `shutil.copy(temp_filename, d2_filename)` places the combined
download at the canonical path (line 224), then `strip_era5_vars` writes the
stripped copy to `d2_filename + '.tempxds'` (line 164) and renames it over
the canonical path (line 166).  Returns the intermediate states in order and
the final state. -/
def stripSteps (allVars : List String) (year : ℤ) :
    List String → DlFS → List DlFS × DlFS
  | [], fs => ([], fs)
  | v :: rest, fs =>
    let f1 := fsSet (.canonical v year) (.combined allVars) fs
    let f2 := fsSet (.tempxds v year) (.single v) f1
    let f3 := fsRename (.tempxds v year) (.canonical v year) f2
    (f1 :: f2 :: f3 :: (stripSteps allVars year rest f3).1,
      (stripSteps allVars year rest f3).2)

/-- Embeds one fetch job (`download_era5_year`) as its sequence of filesystem
states, starting from an empty directory: first the combined request is
downloaded to `dest_filename + '.tempdl'` (line 217), then the strip loop
runs, and finally the combined temporary is removed (line 229). -/
def jobTrace (vars : List String) (year : ℤ) : List DlFS :=
  let v0 := vars.headD ""
  let s1 : DlFS := fsSet (.tempdl v0 year) (.combined vars) (fun _ => none)
  s1 :: (stripSteps vars year vars s1).1 ++
    [fsRemove (.tempdl v0 year) (stripSteps vars year vars s1).2]

/-! Embedding of the grid snapping of `main` (lines 419-431).  The source
computes with binary floats; on the quarter-degree grid and the concrete
inputs below every intermediate value is exactly representable, so exact
rationals embed the computation faithfully. -/

/-- Embeds line 423: `grid_lat_n = math.ceil(latitude_n * 4) / 4`. -/
def gridLatN (latN : ℚ) : ℚ := (⌈latN * 4⌉ : ℚ) / 4

/-- Embeds line 424: `grid_long_e = math.floor(longitude_e * 4) / 4`. -/
def gridLongE (longE : ℚ) : ℚ := (⌊longE * 4⌋ : ℚ) / 4

/-- Embeds lines 427-429: `loc_latn = int(round(grid_lat_n * 100))`,
`loc_lone = int(round(grid_long_e * 100))`,
`location_name = f'{loc_latn}N_{loc_lone}E'`.  The snapped coordinates are
integer multiples of 1/4, so the rounded quantities are exact integers and
Python's banker's rounding agrees with `round`. -/
def location_name (latN longE : ℚ) : String :=
  toString (round (gridLatN latN * 100)) ++ "N_" ++
    toString (round (gridLongE longE * 100)) ++ "E"

/-! Theorems. -/

theorem isLeap_iff (y : ℤ) : isLeap y = true ↔ leapRuleSpec y := by
  have h4 : y % 4 = 0 ↔ (4 : ℤ) ∣ y := (@Int.dvd_iff_emod_eq_zero 4 y).symm
  have h100 : y % 100 = 0 ↔ (100 : ℤ) ∣ y := (@Int.dvd_iff_emod_eq_zero 100 y).symm
  have h400 : y % 400 = 0 ↔ (400 : ℤ) ∣ y := (@Int.dvd_iff_emod_eq_zero 400 y).symm
  have h44 : (400 : ℤ) ∣ y → (4 : ℤ) ∣ y := fun h => dvd_trans (by norm_num) h
  unfold isLeap leapRuleSpec
  simp only [Bool.or_eq_true, Bool.and_eq_true, beq_iff_eq, bne_iff_ne, ne_eq,
    h4, h100, h400]
  tauto

theorem expectedHours_cast_eq_spec (year : ℤ) (c : UtcTime) :
    (expectedHours year c : ℤ) = expectedSpec year c := by
  unfold expectedHours expectedSpec
  by_cases h : year = c.year
  · rw [if_pos h, if_pos h]
    have hq : (c.secOfYear : ℚ) / 3600 = ((c.secOfYear : ℤ) : ℚ) / ((3600 : ℕ) : ℚ) := by
      push_cast; ring
    rw [hq, Rat.floor_intCast_div_natCast]
    omega
  · rw [if_neg h, if_neg h]
    unfold hours_in_year
    by_cases hl : leapRuleSpec year
    · rw [if_pos ((isLeap_iff year).mpr hl), if_pos hl]; norm_num
    · rw [if_neg (fun hh => hl ((isLeap_iff year).mp hh)), if_neg hl]; norm_num

/-- C1: for every path, year, and cutoff, `download_is_complete` returns true
iff the number of hourly samples `n` in the file satisfies `n ≥ expected`,
with `expected` as the spec words it (floor of hours to the cutoff for the
cutoff's year, else `24*366`/`24*365` by the proleptic-Gregorian leap rule). -/
theorem c1_download_is_complete_iff (store : FileStore) (p : String) (year : ℤ)
    (cutoff : UtcTime) (f : NcFile) (hf : store.lookup p = some (.ok f)) :
    download_is_complete store p year cutoff = .ok true ↔
      (f.valid_time.length : ℤ) ≥ expectedSpec year cutoff := by
  unfold download_is_complete
  rw [hf]
  simp only [Except.ok.injEq, decide_eq_true_eq]
  rw [← expectedHours_cast_eq_spec]
  exact ⟨fun h => by exact_mod_cast h, fun h => by exact_mod_cast h⟩

/-- Witness for C1 at a concrete input: a 1940 file holding 2 samples, judged
against a 1941 cutoff (1940 is a leap year, so 8784 hours are expected). -/
theorem c1_witness :
    List.lookup "d/t_1940.nc"
        [("d/t_1940.nc", Entry.ok ⟨[0, 3600], [1, 2], 700⟩)] =
      some (Entry.ok ⟨[0, 3600], [1, 2], 700⟩) ∧
    (download_is_complete [("d/t_1940.nc", Entry.ok ⟨[0, 3600], [1, 2], 700⟩)]
        "d/t_1940.nc" 1940 ⟨1941, 0⟩ = .ok true ↔
      (((⟨[0, 3600], [1, 2], 700⟩ : NcFile).valid_time.length : ℤ)) ≥
        expectedSpec 1940 ⟨1941, 0⟩) :=
  ⟨by decide,
    c1_download_is_complete_iff
      [("d/t_1940.nc", Entry.ok ⟨[0, 3600], [1, 2], 700⟩)] "d/t_1940.nc" 1940
      ⟨1941, 0⟩ ⟨[0, 3600], [1, 2], 700⟩ (by decide)⟩

/-- C5 counterexample: completeness is not monotone in the cutoff.  A 2024
file with 24 samples is complete for the cutoff Jan 2 2024 00:00 but
incomplete for the later cutoff Jan 3 2024 00:00 with the same content. -/
theorem c5_counterexample :
    UtcTime.le ⟨2024, 86400⟩ ⟨2024, 172800⟩ ∧
    download_is_complete [("p.nc", Entry.ok ⟨List.replicate 24 0, [], 700⟩)]
        "p.nc" 2024 ⟨2024, 86400⟩ = .ok true ∧
    download_is_complete [("p.nc", Entry.ok ⟨List.replicate 24 0, [], 700⟩)]
        "p.nc" 2024 ⟨2024, 172800⟩ = .ok false := by
  decide

theorem expectedHours_antitone (year : ℤ) (c1 c2 : UtcTime)
    (hle : UtcTime.le c1 c2) (hv : c1.valid) (hy : year ≤ c1.year) :
    expectedHours year c1 ≤ expectedHours year c2 := by
  unfold UtcTime.valid at hv
  unfold expectedHours
  by_cases h1 : year = c1.year <;> by_cases h2 : year = c2.year
  · rw [if_pos h1, if_pos h2]
    rcases hle with hlt | ⟨_, hsec⟩
    · omega
    · exact Nat.div_le_div_right hsec
  · rw [if_pos h1, if_neg h2]
    have : c1.secOfYear / 3600 < hours_in_year c1.year :=
      (Nat.div_lt_iff_lt_mul (by norm_num)).mpr (by omega)
    rw [h1]; omega
  · exfalso
    rcases hle with hlt | ⟨heq, _⟩ <;> omega
  · rw [if_neg h1, if_neg h2]

/-- C5 amended: completeness is antitone, not monotone, in the cutoff.  For
the same file content, a valid earlier-or-equal cutoff `c1` whose year is not
before the file's year, completeness at the later cutoff `c2` implies
completeness at `c1`; advancing the cutoff can invalidate completeness of a
current-year file (see the counterexample). -/
theorem c5_complete_antitone (store : FileStore) (p : String) (year : ℤ)
    (c1 c2 : UtcTime) (hle : UtcTime.le c1 c2) (hv : c1.valid)
    (hy : year ≤ c1.year)
    (h2 : download_is_complete store p year c2 = .ok true) :
    download_is_complete store p year c1 = .ok true := by
  unfold download_is_complete at h2 ⊢
  cases hl : store.lookup p with
  | none => rw [hl] at h2; simp at h2
  | some e =>
    cases e with
    | corrupt s => rw [hl] at h2; simp at h2
    | ok f =>
      rw [hl] at h2
      simp only [Except.ok.injEq, decide_eq_true_eq] at h2 ⊢
      exact le_trans (expectedHours_antitone year c1 c2 hle hv hy) h2

/-- Witness for C5 (amended): a 2024 file with 48 hourly samples is complete
at the cutoff Jan 3 2024 00:00 and hence also at the earlier cutoff
Jan 2 2024 00:00. -/
theorem c5_witness :
    UtcTime.le ⟨2024, 86400⟩ ⟨2024, 172800⟩ ∧
    UtcTime.valid ⟨2024, 86400⟩ ∧
    (2024 : ℤ) ≤ (2024 : ℤ) ∧
    download_is_complete
        [("q.nc", Entry.ok ⟨List.replicate 48 0, [], 700⟩)]
        "q.nc" 2024 ⟨2024, 172800⟩ = .ok true ∧
    download_is_complete
        [("q.nc", Entry.ok ⟨List.replicate 48 0, [], 700⟩)]
        "q.nc" 2024 ⟨2024, 86400⟩ = .ok true :=
  ⟨by decide, by decide, by decide, by decide,
    c5_complete_antitone
      [("q.nc", Entry.ok ⟨List.replicate 48 0, [], 700⟩)] "q.nc" 2024
      ⟨2024, 86400⟩ ⟨2024, 172800⟩ (by decide) (by decide) (by decide)
      (by decide)⟩

/-- C8: an existing file that cannot be opened as a netCDF archive makes both
the completeness check and the aligner's open step fail fatally, printing a
diagnostic that names the offending path and terminating with a non-zero
status (no repair is attempted: both simply abort). -/
theorem c8_corrupt_file_fatal (store : FileStore) (locPath e5Var : String)
    (year yearQ : ℤ) (cutoff : UtcTime) (sz : ℕ)
    (hc : store.lookup (destPath locPath e5Var year) = some (.corrupt sz)) :
    (∃ e : Fatal,
        download_is_complete store (destPath locPath e5Var year) yearQ cutoff =
          .error e ∧
        e.msg = "Existing output " ++ destPath locPath e5Var year ++
          " could not be opened!" ∧
        e.code ≠ 0) ∧
    (∃ e : Fatal,
        open_nc_ro store locPath e5Var year = .error e ∧
        e.msg = "Existing output " ++ destPath locPath e5Var year ++
          " could not be opened!" ∧
        e.code ≠ 0) := by
  unfold download_is_complete open_nc_ro
  rw [hc]
  exact ⟨⟨_, rfl, rfl, by norm_num⟩, ⟨_, rfl, rfl, by norm_num⟩⟩

theorem isLeap_true_of (y : ℤ) (h : leapRuleSpec y) : isLeap y = true :=
  (isLeap_iff y).mpr h

theorem isLeap_false_of (y : ℤ) (h : ¬leapRuleSpec y) : isLeap y = false := by
  cases hb : isLeap y
  · rfl
  · exact absurd ((isLeap_iff y).mp hb) h

/-- A year spans 366 days when leap and 365 otherwise, as measured by the
difference of consecutive Jan 1 epochs. -/
theorem jan1Epoch_succ_sub (y : ℤ) :
    jan1Epoch (y + 1) - jan1Epoch y = 86400 * (if isLeap y then 366 else 365) := by
  by_cases h4 : (4 : ℤ) ∣ y <;> by_cases h100 : (100 : ℤ) ∣ y <;>
    by_cases h400 : (400 : ℤ) ∣ y
  · rw [isLeap_true_of y ⟨h4, Or.inr h400⟩, if_pos rfl]
    unfold jan1Epoch daysToJan1 leapDaysBefore; omega
  · rw [isLeap_false_of y (fun hl => hl.2.elim (fun hn => hn h100) h400),
      if_neg Bool.false_ne_true]
    unfold jan1Epoch daysToJan1 leapDaysBefore; omega
  · exact absurd (dvd_trans (by norm_num : (100 : ℤ) ∣ 400) h400) h100
  · rw [isLeap_true_of y ⟨h4, Or.inl h100⟩, if_pos rfl]
    unfold jan1Epoch daysToJan1 leapDaysBefore; omega
  · exact absurd (dvd_trans (by norm_num : (4 : ℤ) ∣ 400) h400) h4
  · rw [isLeap_false_of y (fun hl => h4 hl.1), if_neg Bool.false_ne_true]
    unfold jan1Epoch daysToJan1 leapDaysBefore; omega
  · exact absurd (dvd_trans (by norm_num : (4 : ℤ) ∣ 400) h400) h4
  · rw [isLeap_false_of y (fun hl => h4 hl.1), if_neg Bool.false_ne_true]
    unfold jan1Epoch daysToJan1 leapDaysBefore; omega

theorem hours_in_year_cast (y : ℤ) :
    (hours_in_year y : ℤ) = 24 * (if isLeap y then 366 else 365) := by
  unfold hours_in_year
  cases hb : isLeap y <;> simp [hb]

theorem jan1Epoch_succ_sub_hours (y : ℤ) :
    jan1Epoch (y + 1) - jan1Epoch y = 3600 * (hours_in_year y : ℤ) := by
  rw [jan1Epoch_succ_sub, hours_in_year_cast]; ring

theorem hours_in_year_lb (y : ℤ) : 8760 ≤ hours_in_year y := by
  unfold hours_in_year; split <;> norm_num

theorem hourLoopAux_eq_range (stop : ℤ) :
    ∀ (fuel : ℕ) (t : ℤ), hourIters t stop ≤ fuel →
      hourLoopAux stop fuel t =
        (List.range (hourIters t stop)).map (fun i : ℕ => t + 3600 * (i : ℤ)) := by
  intro fuel
  induction fuel with
  | zero =>
    intro t h
    unfold hourIters at h ⊢
    by_cases ht : t ≤ stop
    · rw [if_pos ht] at h; omega
    · rw [if_neg ht]; rfl
  | succ n ih =>
    intro t h
    unfold hourLoopAux
    by_cases ht : t ≤ stop
    · rw [if_pos ht]
      have hit : hourIters t stop = hourIters (t + 3600) stop + 1 := by
        unfold hourIters
        by_cases ht2 : t + 3600 ≤ stop
        · rw [if_pos ht, if_pos ht2]
          have h1 : (stop - t).toNat = (stop - (t + 3600)).toNat + 3600 := by omega
          rw [h1, Nat.add_div_right _ (by norm_num)]
        · rw [if_pos ht, if_neg ht2]
          have hlt : (stop - t).toNat < 3600 := by omega
          rw [Nat.div_eq_of_lt hlt]
      rw [hit, List.range_succ_eq_map, List.map_cons, List.map_map]
      have hf : (fun i : ℕ => t + 3600 * (i : ℤ)) ∘ Nat.succ =
          fun i : ℕ => (t + 3600) + 3600 * (i : ℤ) := by
        funext i
        simp only [Function.comp_apply, Nat.succ_eq_add_one]
        push_cast; ring
      rw [hf, ← ih (t + 3600) (by omega)]
      norm_num
    · rw [if_neg ht]
      unfold hourIters
      rw [if_neg ht]
      rfl

theorem hourLoop_eq_range (start stop : ℤ) :
    hourLoop start stop =
      (List.range (hourIters start stop)).map (fun i : ℕ => start + 3600 * (i : ℤ)) :=
  hourLoopAux_eq_range stop _ start (le_refl _)

theorem rowsFromFiles_length (year : ℤ) (fo : List (NcFile × ℚ)) :
    (rowsFromFiles year fo).length = hours_in_year year := by
  unfold rowsFromFiles
  rw [List.length_map, List.enum_length, hourLoop_eq_range, List.length_map,
    List.length_range]
  have hd := jan1Epoch_succ_sub_hours year
  have hlb := hours_in_year_lb year
  unfold hourIters
  rw [if_pos (by omega)]
  have ht : (jan1Epoch (year + 1) - 3600 - jan1Epoch year).toNat =
      3600 * (hours_in_year year - 1) := by omega
  rw [ht, Nat.mul_div_cancel_left _ (by norm_num)]
  omega

/-- C2 amended: every year processed by `create_csv`, the terminal year
included, yields `24 x 366` data rows when the year is leap and `24 x 365`
otherwise; the terminal year is not truncated at the embargo cutoff (hours
past the file's samples are emitted with nulls instead). -/
theorem c2_year_record_count (store : FileStore) (locPath : String)
    (e5Vars : List String) (year : ℤ) (rows : List (ℤ × List (Option ℚ)))
    (h : csvYearRecords store locPath e5Vars year = .ok rows) :
    rows.length = hours_in_year year := by
  unfold csvYearRecords at h
  cases hop : openPhase store locPath year e5Vars with
  | error e => rw [hop] at h; simp [Except.map] at h
  | ok fo =>
    rw [hop] at h
    simp only [Except.map, Except.ok.injEq] at h
    rw [← h]
    exact rowsFromFiles_length year fo

/-- C2 counterexample: for the terminal year 2023 with an embargo cutoff
1000 hours into 2023, `create_csv` emits 8760 rows, not the 1000 rows between
Jan 1 00:00 and the cutoff that the claim requires. -/
theorem c2_counterexample :
    ∃ rows,
      csvYearRecords
          [(destPath "d" "t2m" 2023, Entry.ok ⟨[jan1Epoch 2023], [5], 700⟩)]
          "d" ["t2m"] 2023 = .ok rows ∧
      rows.length = 8760 ∧
      expectedSpec 2023 ⟨2023, 3600000⟩ = 1000 ∧
      (rows.length : ℤ) ≠ expectedSpec 2023 ⟨2023, 3600000⟩ := by
  have hop : openPhase
      [(destPath "d" "t2m" 2023, Entry.ok ⟨[jan1Epoch 2023], [5], 700⟩)]
      "d" 2023 ["t2m"] =
      .ok [(⟨[jan1Epoch 2023], [5], 700⟩, 0)] := by
    simp [openPhase, open_nc_ro, List.lookup, fileOffset, bind, Except.bind]
  have hlen : (rowsFromFiles 2023 [(⟨[jan1Epoch 2023], [5], 700⟩, 0)]).length =
      8760 := by
    rw [rowsFromFiles_length]; decide
  have hspec : expectedSpec 2023 ⟨2023, 3600000⟩ = 1000 := by
    unfold expectedSpec
    rw [if_pos rfl]
    have hq : ((3600000 : ℕ) : ℚ) / 3600 = ((1000 : ℤ) : ℚ) := by norm_num
    rw [hq, Int.floor_intCast]
  refine ⟨rowsFromFiles 2023 [(⟨[jan1Epoch 2023], [5], 700⟩, 0)], ?_, hlen, hspec, ?_⟩
  · unfold csvYearRecords
    rw [hop]
    rfl
  · rw [hlen, hspec]; norm_num

/-- Witness for C2 (amended) at a concrete input: a single 1940 file. -/
theorem c2_witness :
    csvYearRecords
        [(destPath "d" "t2m" 1940, Entry.ok ⟨[jan1Epoch 1940], [2], 700⟩)]
        "d" ["t2m"] 1940 =
      .ok (rowsFromFiles 1940 [(⟨[jan1Epoch 1940], [2], 700⟩, 0)]) ∧
    (rowsFromFiles 1940 [(⟨[jan1Epoch 1940], [2], 700⟩, 0)]).length =
      hours_in_year 1940 := by
  have hop : openPhase
      [(destPath "d" "t2m" 1940, Entry.ok ⟨[jan1Epoch 1940], [2], 700⟩)]
      "d" 1940 ["t2m"] =
      .ok [(⟨[jan1Epoch 1940], [2], 700⟩, 0)] := by
    simp [openPhase, open_nc_ro, List.lookup, fileOffset, bind, Except.bind]
  have h : csvYearRecords
      [(destPath "d" "t2m" 1940, Entry.ok ⟨[jan1Epoch 1940], [2], 700⟩)]
      "d" ["t2m"] 1940 =
      .ok (rowsFromFiles 1940 [(⟨[jan1Epoch 1940], [2], 700⟩, 0)]) := by
    unfold csvYearRecords
    rw [hop]
    rfl
  exact ⟨h, c2_year_record_count _ _ _ _ _ h⟩

theorem hourIters_year (y : ℤ) :
    hourIters (jan1Epoch y) (jan1Epoch (y + 1) - 3600) = hours_in_year y := by
  have hd := jan1Epoch_succ_sub_hours y
  have hlb := hours_in_year_lb y
  unfold hourIters
  rw [if_pos (by omega)]
  have ht : (jan1Epoch (y + 1) - 3600 - jan1Epoch y).toNat =
      3600 * (hours_in_year y - 1) := by omega
  rw [ht, Nat.mul_div_cancel_left _ (by norm_num)]
  omega

theorem rowsFromFiles_getElem (year : ℤ) (fo : List (NcFile × ℚ)) (h : ℕ)
    (hh : h < hours_in_year year) :
    (rowsFromFiles year fo)[h]? =
      some (jan1Epoch year + 3600 * (h : ℤ), fo.map (fun p => emitVal p h)) := by
  unfold rowsFromFiles
  rw [List.getElem?_map, List.getElem?_enum, hourLoop_eq_range,
    List.getElem?_map, List.getElem?_range (by rw [hourIters_year]; exact hh)]
  rfl

/-- Bridging lemma: the executable `Rat.floor` agrees with `Int.floor`. -/
theorem ratFloor_eq_floor (q : ℚ) : Rat.floor q = ⌊q⌋ :=
  (Rat.floor_def' q).trans Rat.floor_def.symm

/-- The emitted value at a whole-hour offset `o`: the sample at source index
`h - o` when that index is in range, and null otherwise. -/
theorem emitVal_intCast (f : NcFile) (o : ℤ) (h : ℕ) :
    emitVal (f, (o : ℚ)) h =
      if 0 ≤ (h : ℤ) - o ∧ (h : ℤ) - o < (f.valid_time.length : ℤ) then
        some (f.data.getD ((h : ℤ) - o).toNat 0)
      else none := by
  unfold emitVal
  have hidx : (h : ℚ) - (o : ℚ) = (((h : ℤ) - o : ℤ) : ℚ) := by push_cast; ring
  simp only [hidx]
  by_cases hc : 0 ≤ (h : ℤ) - o ∧ (h : ℤ) - o < (f.valid_time.length : ℤ)
  · rw [if_pos ⟨by exact_mod_cast hc.1, by exact_mod_cast hc.2⟩, if_pos hc,
      ratFloor_eq_floor, Int.floor_intCast]
  · rw [if_neg (fun hq => hc ⟨by exact_mod_cast hq.1, by exact_mod_cast hq.2⟩),
      if_neg hc]

/-- Inversion for `openPhase`: every opened file is paired with its own
`fileOffset` and has a nonempty `valid_time` axis. -/
theorem openPhase_get (store : FileStore) (locPath : String) (year : ℤ) :
    ∀ (vs : List String) (fo : List (NcFile × ℚ)) (j : ℕ) (p : NcFile × ℚ),
      openPhase store locPath year vs = .ok fo → fo[j]? = some p →
      p.2 = fileOffset p.1 year ∧ p.1.valid_time ≠ [] := by
  intro vs
  induction vs with
  | nil =>
    intro fo j p hok hg
    unfold openPhase at hok
    simp only [Except.ok.injEq] at hok
    rw [← hok] at hg
    simp at hg
  | cons v rest ih =>
    intro fo j p hok hg
    unfold openPhase at hok
    cases ho : open_nc_ro store locPath v year with
    | error e => rw [ho] at hok; simp [bind, Except.bind] at hok
    | ok f =>
      rw [ho] at hok
      simp only [bind, Except.bind] at hok
      by_cases he : f.valid_time = []
      · rw [if_pos he] at hok; simp at hok
      · rw [if_neg he] at hok
        cases ht : openPhase store locPath year rest with
        | error e => rw [ht] at hok; simp at hok
        | ok tail =>
          rw [ht] at hok
          simp only [Except.ok.injEq] at hok
          rw [← hok] at hg
          cases j with
          | zero =>
            simp only [List.getElem?_cons_zero, Option.some.injEq] at hg
            rw [← hg]
            exact ⟨rfl, he⟩
          | succ n =>
            simp only [List.getElem?_cons_succ] at hg
            exact ih tail n p ht hg

/-- C3: for every variable at position `j` of the opened file list, with a
whole-hour per-file offset `o` (`o_v = round((first_sample - jan1) / 1h)`,
exact on hourly data) and sample count `c_v = len(valid_time)`, grid hour `h`
of the year receives the file's sample at source index `h - o_v` when
`0 ≤ h - o_v < c_v` and null otherwise; in particular, for `o > 0` the first
`o` records are null and record `o` holds the file's first sample. -/
theorem c3_alignment (store : FileStore) (locPath : String)
    (e5Vars : List String) (year : ℤ) (fo : List (NcFile × ℚ)) (j : ℕ)
    (f : NcFile) (o : ℤ)
    (hok : openPhase store locPath year e5Vars = .ok fo)
    (hj : fo[j]? = some (f, (o : ℚ)))
    (hdl : f.data.length = f.valid_time.length) :
    (∀ h : ℕ, h < hours_in_year year →
      ∃ r : ℤ × List (Option ℚ), (rowsFromFiles year fo)[h]? = some r ∧
        r.2[j]? = some
          (if 0 ≤ (h : ℤ) - round (fileOffset f year) ∧
              (h : ℤ) - round (fileOffset f year) < (f.valid_time.length : ℤ)
           then some (f.data.getD ((h : ℤ) - round (fileOffset f year)).toNat 0)
           else none)) ∧
    (0 < o →
      (∀ k : ℕ, (k : ℤ) < o → k < hours_in_year year →
        ∃ r : ℤ × List (Option ℚ), (rowsFromFiles year fo)[k]? = some r ∧
          r.2[j]? = some none) ∧
      (o.toNat < hours_in_year year → f.valid_time.length ≠ 0 →
        ∃ r : ℤ × List (Option ℚ),
          (rowsFromFiles year fo)[o.toNat]? = some r ∧
          r.2[j]? = some (some (f.data.getD 0 0)))) := by
  have hoff : fileOffset f year = (o : ℚ) :=
    ((openPhase_get store locPath year e5Vars fo j (f, (o : ℚ)) hok hj).1).symm
  have hro : round (fileOffset f year) = o := by rw [hoff, round_intCast]
  have hmain : ∀ h : ℕ, h < hours_in_year year →
      ∃ r : ℤ × List (Option ℚ), (rowsFromFiles year fo)[h]? = some r ∧
        r.2[j]? = some
          (if 0 ≤ (h : ℤ) - o ∧ (h : ℤ) - o < (f.valid_time.length : ℤ)
           then some (f.data.getD ((h : ℤ) - o).toNat 0)
           else none) := by
    intro h hh
    refine ⟨(jan1Epoch year + 3600 * (h : ℤ), fo.map (fun p => emitVal p h)),
      rowsFromFiles_getElem year fo h hh, ?_⟩
    rw [List.getElem?_map, hj]
    simp only [Option.map_some']
    rw [emitVal_intCast]
  constructor
  · intro h hh
    rw [hro]
    exact hmain h hh
  · intro hpos
    constructor
    · intro k hk hkh
      obtain ⟨r, hr, hv⟩ := hmain k hkh
      refine ⟨r, hr, ?_⟩
      rw [hv, if_neg (fun hq => by omega)]
    · intro hoh hc
      obtain ⟨r, hr, hv⟩ := hmain o.toNat hoh
      have hk : ((o.toNat : ℕ) : ℤ) = o := Int.toNat_of_nonneg (le_of_lt hpos)
      refine ⟨r, hr, ?_⟩
      have hidx : (((o.toNat : ℕ) : ℤ) - o).toNat = 0 := by
        rw [hk, sub_self, Int.toNat_zero]
      rw [hv, if_pos ⟨by rw [hk, sub_self], by
          rw [hk, sub_self]
          exact_mod_cast Nat.pos_of_ne_zero hc⟩, hidx]

/-- Witness for C3 at a concrete input: one 1940 file whose first sample is 3
hours into the year and which holds 2 samples. -/
theorem c3_witness :
    openPhase
        [(destPath "d" "t2m" 1940,
          Entry.ok ⟨[jan1Epoch 1940 + 10800, jan1Epoch 1940 + 14400], [7, 8], 700⟩)]
        "d" 1940 ["t2m"] =
      .ok [(⟨[jan1Epoch 1940 + 10800, jan1Epoch 1940 + 14400], [7, 8], 700⟩,
        ((3 : ℤ) : ℚ))] ∧
    ([(( ⟨[jan1Epoch 1940 + 10800, jan1Epoch 1940 + 14400], [7, 8], 700⟩ : NcFile),
        ((3 : ℤ) : ℚ))][0]? =
      some (⟨[jan1Epoch 1940 + 10800, jan1Epoch 1940 + 14400], [7, 8], 700⟩,
        ((3 : ℤ) : ℚ))) ∧
    ((∀ h : ℕ, h < hours_in_year 1940 →
      ∃ r : ℤ × List (Option ℚ),
        (rowsFromFiles 1940
          [(⟨[jan1Epoch 1940 + 10800, jan1Epoch 1940 + 14400], [7, 8], 700⟩,
            ((3 : ℤ) : ℚ))])[h]? = some r ∧
        r.2[0]? = some
          (if 0 ≤ (h : ℤ) - round (fileOffset
                ⟨[jan1Epoch 1940 + 10800, jan1Epoch 1940 + 14400], [7, 8], 700⟩ 1940) ∧
              (h : ℤ) - round (fileOffset
                ⟨[jan1Epoch 1940 + 10800, jan1Epoch 1940 + 14400], [7, 8], 700⟩ 1940) <
                (((⟨[jan1Epoch 1940 + 10800, jan1Epoch 1940 + 14400], [7, 8], 700⟩ : NcFile)).valid_time.length : ℤ)
           then some ((⟨[jan1Epoch 1940 + 10800, jan1Epoch 1940 + 14400], [7, 8], 700⟩ : NcFile).data.getD
              ((h : ℤ) - round (fileOffset
                ⟨[jan1Epoch 1940 + 10800, jan1Epoch 1940 + 14400], [7, 8], 700⟩ 1940)).toNat 0)
           else none)) ∧
    (0 < (3 : ℤ) →
      (∀ k : ℕ, (k : ℤ) < (3 : ℤ) → k < hours_in_year 1940 →
        ∃ r : ℤ × List (Option ℚ),
          (rowsFromFiles 1940
            [(⟨[jan1Epoch 1940 + 10800, jan1Epoch 1940 + 14400], [7, 8], 700⟩,
              ((3 : ℤ) : ℚ))])[k]? = some r ∧
          r.2[0]? = some none) ∧
      ((3 : ℤ).toNat < hours_in_year 1940 →
        (⟨[jan1Epoch 1940 + 10800, jan1Epoch 1940 + 14400], [7, 8], 700⟩ : NcFile).valid_time.length ≠ 0 →
        ∃ r : ℤ × List (Option ℚ),
          (rowsFromFiles 1940
            [(⟨[jan1Epoch 1940 + 10800, jan1Epoch 1940 + 14400], [7, 8], 700⟩,
              ((3 : ℤ) : ℚ))])[(3 : ℤ).toNat]? = some r ∧
          r.2[0]? = some (some
            ((⟨[jan1Epoch 1940 + 10800, jan1Epoch 1940 + 14400], [7, 8], 700⟩ : NcFile).data.getD 0 0))))) := by
  have hoff : fileOffset
      (⟨[jan1Epoch 1940 + 10800, jan1Epoch 1940 + 14400], [7, 8], 700⟩ : NcFile)
      1940 = ((3 : ℤ) : ℚ) := by
    unfold fileOffset
    simp only [List.headD]
    push_cast
    ring_nf
  have hok : openPhase
      [(destPath "d" "t2m" 1940,
        Entry.ok ⟨[jan1Epoch 1940 + 10800, jan1Epoch 1940 + 14400], [7, 8], 700⟩)]
      "d" 1940 ["t2m"] =
      .ok [(⟨[jan1Epoch 1940 + 10800, jan1Epoch 1940 + 14400], [7, 8], 700⟩,
        ((3 : ℤ) : ℚ))] := by
    simp [openPhase, open_nc_ro, List.lookup, bind, Except.bind, hoff]
  exact ⟨hok, by simp,
    c3_alignment _ "d" ["t2m"] 1940 _ 0 _ 3 hok (by simp) (by simp)⟩

/-- C9: the orchestrator consults the completeness check exactly when the
canonical file exists with size strictly greater than 500 bytes; when the
file is missing or at most 500 bytes it unconditionally enqueues a fetch job
without ever opening the file. -/
theorem c9_gate (store : FileStore) (locPath : String) (todl : List String)
    (v : String) (year : ℤ) (dtEnd : UtcTime) :
    (fileGate store (destPath locPath v year) = true ↔
      ∃ e : Entry, store.lookup (destPath locPath v year) = some e ∧
        500 < e.bytes) ∧
    (fileGate store (destPath locPath v year) = false →
      processYear store locPath todl v year dtEnd = .ok [.job todl year]) ∧
    (fileGate store (destPath locPath v year) = true →
      processYear store locPath todl v year dtEnd =
        (download_is_complete store (destPath locPath v year) year dtEnd).bind
          (fun b =>
            if b then .ok [.check (destPath locPath v year)]
            else .ok [.check (destPath locPath v year), .job todl year])) := by
  refine ⟨?_, ?_, ?_⟩
  · unfold fileGate
    cases hl : store.lookup (destPath locPath v year) with
    | none => simp
    | some e =>
      simp only [decide_eq_true_eq, Option.some.injEq]
      constructor
      · intro h; exact ⟨e, rfl, h⟩
      · rintro ⟨e', he', h⟩; rw [he']; exact h
  · intro h
    unfold processYear
    rw [h]
    simp
  · intro h
    unfold processYear
    rw [h]
    simp only [if_true]
    cases hd : download_is_complete store (destPath locPath v year) year dtEnd with
    | error e => rfl
    | ok b => cases b <;> rfl

/-- Witness for C9: an empty store gates nothing, so the single pass of a
single variable enqueues its job unconditionally. -/
theorem c9_witness :
    fileGate [] (destPath "d" "t" 1940) = false ∧
    processYear [] "d" ["t"] "t" 1940 ⟨1940, 0⟩ = .ok [.job ["t"] 1940] :=
  ⟨by decide, (c9_gate [] "d" ["t"] "t" 1940 ⟨1940, 0⟩).2.1 (by decide)⟩

/-- C6 counterexample: a canonical file that exists and that the completeness
check scores complete, but whose size is not strictly greater than 500 bytes,
is re-fetched: the second run still enqueues a job. -/
theorem c6_counterexample :
    List.lookup (destPath "d" "t" 1940)
        [(destPath "d" "t" 1940, Entry.ok ⟨[], [], 500⟩)] =
      some (Entry.ok ⟨[], [], 500⟩) ∧
    download_is_complete [(destPath "d" "t" 1940, Entry.ok ⟨[], [], 500⟩)]
        (destPath "d" "t" 1940) 1940 ⟨1940, 0⟩ = .ok true ∧
    download_era5 [(destPath "d" "t" 1940, Entry.ok ⟨[], [], 500⟩)] "d" ["t"]
        ⟨1940, 0⟩ = .ok [Event.job ["t"] 1940, Event.barrier "t"] := by
  decide

theorem processYear_complete (store : FileStore) (locPath : String)
    (todl : List String) (v : String) (year : ℤ) (dtEnd : UtcTime) (f : NcFile)
    (hfile : store.lookup (destPath locPath v year) = some (.ok f))
    (hsz : 500 < f.size)
    (hcomp : expectedHours year dtEnd ≤ f.valid_time.length) :
    processYear store locPath todl v year dtEnd =
      .ok [.check (destPath locPath v year)] := by
  unfold processYear
  have hg : fileGate store (destPath locPath v year) = true := by
    unfold fileGate
    rw [hfile]
    simpa [Entry.bytes] using hsz
  rw [hg]
  have hd : download_is_complete store (destPath locPath v year) year dtEnd =
      .ok true := by
    unfold download_is_complete
    rw [hfile]
    simpa using hcomp
  rw [if_pos rfl, hd]

theorem processYears_complete (store : FileStore) (locPath : String)
    (todl : List String) (v : String) (dtEnd : UtcTime) :
    ∀ ys : List ℤ,
      (∀ y ∈ ys, ∃ f : NcFile,
        store.lookup (destPath locPath v y) = some (.ok f) ∧ 500 < f.size ∧
        expectedHours y dtEnd ≤ f.valid_time.length) →
      ∃ evs : List Event,
        processYears store locPath todl v dtEnd ys = .ok evs ∧
        ∀ e ∈ evs, ∃ p : String, e = .check p := by
  intro ys
  induction ys with
  | nil => intro _; exact ⟨[], rfl, by simp⟩
  | cons y rest ih =>
    intro hall
    obtain ⟨f, hfile, hsz, hcomp⟩ := hall y (by simp)
    obtain ⟨tail, htail, htprop⟩ := ih (fun y hy => hall y (by simp [hy]))
    refine ⟨.check (destPath locPath v y) :: tail, ?_, ?_⟩
    · unfold processYears
      rw [processYear_complete store locPath todl v y dtEnd f hfile hsz hcomp,
        htail]
      rfl
    · intro e he
      rcases List.mem_cons.mp he with rfl | he'
      · exact ⟨destPath locPath v y, rfl⟩
      · exact htprop e he'

theorem downloadPasses_complete (store : FileStore) (locPath : String)
    (dtEnd : UtcTime) :
    ∀ (pending todl : List String),
      (∀ v ∈ pending, ∀ y ∈ yearsAsc dtEnd.year, ∃ f : NcFile,
        store.lookup (destPath locPath v y) = some (.ok f) ∧ 500 < f.size ∧
        expectedHours y dtEnd ≤ f.valid_time.length) →
      ∃ evs : List Event,
        downloadPasses store locPath dtEnd todl pending = .ok evs ∧
        ∀ e ∈ evs, (∃ p : String, e = .check p) ∨ ∃ w : String, e = .barrier w := by
  intro pending
  induction pending with
  | nil => intro todl _; exact ⟨[], rfl, by simp⟩
  | cons v rest ih =>
    intro todl hall
    obtain ⟨evs0, hevs0, hprop0⟩ :=
      processYears_complete store locPath todl v dtEnd
        (yearsAsc dtEnd.year).reverse
        (fun y hy => hall v (by simp) y (List.mem_reverse.mp hy))
    obtain ⟨tail, htail, htprop⟩ :=
      ih (todl.erase v) (fun w hw y hy => hall w (by simp [hw]) y hy)
    refine ⟨evs0 ++ [.barrier v] ++ tail, ?_, ?_⟩
    · unfold downloadPasses
      rw [hevs0, htail]
      rfl
    · intro e he
      rcases List.mem_append.mp he with he' | ht
      · rcases List.mem_append.mp he' with h0 | hb
        · exact Or.inl (hprop0 e h0)
        · exact Or.inr ⟨v, by simpa using hb⟩
      · exact htprop e ht

/-- C6 amended: the fetch phase is idempotent over files that exist with more
than 500 bytes: when every requested (variable, year) file is present, larger
than the 500-byte gate, and complete for the cutoff, a second run enqueues no
fetch job (the gate's size condition is required; see the counterexample). -/
theorem c6_idempotent (store : FileStore) (locPath : String)
    (e5Vars : List String) (dtEnd : UtcTime)
    (hall : ∀ v ∈ e5Vars, ∀ y ∈ yearsAsc dtEnd.year, ∃ f : NcFile,
      store.lookup (destPath locPath v y) = some (.ok f) ∧ 500 < f.size ∧
      expectedHours y dtEnd ≤ f.valid_time.length) :
    ∃ evs : List Event, download_era5 store locPath e5Vars dtEnd = .ok evs ∧
      ∀ jv : List String, ∀ y : ℤ, Event.job jv y ∉ evs := by
  obtain ⟨evs, hevs, hprop⟩ :=
    downloadPasses_complete store locPath dtEnd e5Vars e5Vars hall
  refine ⟨evs, hevs, ?_⟩
  intro jv y hmem
  rcases hprop _ hmem with ⟨p, hp⟩ | ⟨w, hw⟩
  · cases hp
  · cases hw

/-- Witness for C6 (amended): one variable, one year, a 501-byte complete
file; the run performs only the completeness consultation. -/
theorem c6_witness :
    (∀ v ∈ ["t"], ∀ y ∈ yearsAsc (1940 : ℤ), ∃ f : NcFile,
      List.lookup (destPath "d" v y)
          [(destPath "d" "t" 1940, Entry.ok ⟨[], [], 501⟩)] =
        some (.ok f) ∧ 500 < f.size ∧
      expectedHours y ⟨1940, 0⟩ ≤ f.valid_time.length) ∧
    ∃ evs : List Event,
      download_era5 [(destPath "d" "t" 1940, Entry.ok ⟨[], [], 501⟩)] "d" ["t"]
          ⟨1940, 0⟩ = .ok evs ∧
      ∀ jv : List String, ∀ y : ℤ, Event.job jv y ∉ evs := by
  have hys : yearsAsc (1940 : ℤ) = [1940] := by decide
  have hall : ∀ v ∈ ["t"], ∀ y ∈ yearsAsc (1940 : ℤ), ∃ f : NcFile,
      List.lookup (destPath "d" v y)
          [(destPath "d" "t" 1940, Entry.ok ⟨[], [], 501⟩)] =
        some (.ok f) ∧ 500 < f.size ∧
      expectedHours y ⟨1940, 0⟩ ≤ f.valid_time.length := by
    intro v hv y hy
    rw [hys] at hy
    rcases List.mem_singleton.mp hv with rfl
    rcases List.mem_singleton.mp hy with rfl
    exact ⟨⟨[], [], 501⟩, by decide, by decide, by decide⟩
  exact ⟨hall,
    c6_idempotent [(destPath "d" "t" 1940, Entry.ok ⟨[], [], 501⟩)] "d" ["t"]
      ⟨1940, 0⟩ hall⟩

theorem processYear_events (store : FileStore) (locPath : String)
    (todl : List String) (v : String) (year : ℤ) (dtEnd : UtcTime)
    (evs : List Event)
    (h : processYear store locPath todl v year dtEnd = .ok evs) :
    ∀ e ∈ evs, (∃ p : String, e = .check p) ∨ e = .job todl year := by
  unfold processYear at h
  by_cases hg : fileGate store (destPath locPath v year) = true
  · rw [if_pos hg] at h
    cases hd : download_is_complete store (destPath locPath v year) year dtEnd with
    | error e' => rw [hd] at h; cases h
    | ok b =>
      rw [hd] at h
      cases b with
      | true =>
        simp only [Except.ok.injEq] at h
        rw [← h]
        intro e he
        rcases List.mem_singleton.mp he with rfl
        exact Or.inl ⟨_, rfl⟩
      | false =>
        simp only [Except.ok.injEq] at h
        rw [← h]
        intro e he
        rcases List.mem_cons.mp he with rfl | he'
        · exact Or.inl ⟨_, rfl⟩
        · rcases List.mem_singleton.mp he' with rfl
          exact Or.inr rfl
  · rw [if_neg hg] at h
    simp only [Except.ok.injEq] at h
    rw [← h]
    intro e he
    rcases List.mem_singleton.mp he with rfl
    exact Or.inr rfl

theorem processYears_events (store : FileStore) (locPath : String)
    (todl : List String) (v : String) (dtEnd : UtcTime) :
    ∀ (ys : List ℤ) (evs : List Event),
      processYears store locPath todl v dtEnd ys = .ok evs →
      ∀ e ∈ evs, (∃ p : String, e = .check p) ∨ ∃ y : ℤ, e = .job todl y := by
  intro ys
  induction ys with
  | nil =>
    intro evs h
    unfold processYears at h
    simp only [Except.ok.injEq] at h
    rw [← h]
    simp
  | cons y rest ih =>
    intro evs h
    unfold processYears at h
    cases h0 : processYear store locPath todl v y dtEnd with
    | error e' => rw [h0] at h; simp [bind, Except.bind] at h
    | ok evs0 =>
      rw [h0] at h
      simp only [bind, Except.bind] at h
      cases ht : processYears store locPath todl v dtEnd rest with
      | error e' => rw [ht] at h; simp at h
      | ok tail =>
        rw [ht] at h
        simp only [Except.ok.injEq] at h
        rw [← h]
        intro e he
        rcases List.mem_append.mp he with h1 | h2
        · rcases processYear_events store locPath todl v y dtEnd evs0 h0 e h1 with
            hc | hj
          · exact Or.inl hc
          · exact Or.inr ⟨y, hj⟩
        · exact ih tail ht e h2

theorem downloadPasses_structure (store : FileStore) (locPath : String)
    (dtEnd : UtcTime) :
    ∀ (pending : List String) (evs : List Event),
      downloadPasses store locPath dtEnd pending pending = .ok evs →
      ∃ segs : List (List Event),
        segs.length = pending.length ∧
        evs = (List.zipWith (fun seg v => seg ++ [Event.barrier v])
          segs pending).flatten ∧
        ∀ (i : ℕ) (seg : List Event), segs[i]? = some seg →
          ∀ e ∈ seg, (∀ w : String, e ≠ Event.barrier w) ∧
            ∀ (jv : List String) (y : ℤ), e = Event.job jv y →
              jv = pending.drop i := by
  intro pending
  induction pending with
  | nil =>
    intro evs h
    unfold downloadPasses at h
    simp only [Except.ok.injEq] at h
    exact ⟨[], rfl, by rw [← h]; rfl, by intro i seg hs; simp at hs⟩
  | cons v rest ih =>
    intro evs h
    unfold downloadPasses at h
    rw [List.erase_cons_head] at h
    cases h0 : processYears store locPath (v :: rest) v dtEnd
        (yearsAsc dtEnd.year).reverse with
    | error e' => rw [h0] at h; simp [bind, Except.bind] at h
    | ok evs0 =>
      rw [h0] at h
      simp only [bind, Except.bind] at h
      cases ht : downloadPasses store locPath dtEnd rest rest with
      | error e' => rw [ht] at h; simp at h
      | ok tail =>
        rw [ht] at h
        simp only [Except.ok.injEq] at h
        obtain ⟨segs', hlen, hjoin, hseg⟩ := ih tail ht
        refine ⟨evs0 :: segs', by simp [hlen], ?_, ?_⟩
        · rw [← h, List.zipWith_cons_cons, List.flatten_cons, hjoin]
        · intro i seg hs
          cases i with
          | zero =>
            simp only [List.getElem?_cons_zero, Option.some.injEq] at hs
            subst hs
            intro e he
            rcases processYears_events store locPath (v :: rest) v dtEnd _ evs0
                h0 e he with ⟨p, hp⟩ | ⟨y, hj⟩
            · subst hp
              exact ⟨(fun w hw => by cases hw), (fun jv y hjy => by cases hjy)⟩
            · subst hj
              refine ⟨(fun w hw => by cases hw), ?_⟩
              intro jv y' hjy
              injection hjy with h1 h2
              rw [← h1]
              rfl
          | succ n =>
            simp only [List.getElem?_cons_succ] at hs
            exact fun e he => ⟨(hseg n seg hs e he).1,
              fun jv y hjy => (hseg n seg hs e he).2 jv y hjy⟩

/-- C10: the orchestrator processes the requested variables in request order;
the trace is the concatenation, over pass index `i`, of that pass's events
followed by the pass's barrier, the pass segments contain no barrier of their
own, and every job enqueued during pass `i` carries exactly the requested
variable list with its first `i` variables removed. -/
theorem c10_pass_structure (store : FileStore) (locPath : String)
    (e5Vars : List String) (dtEnd : UtcTime) (evs : List Event)
    (h : download_era5 store locPath e5Vars dtEnd = .ok evs) :
    ∃ segs : List (List Event),
      segs.length = e5Vars.length ∧
      evs = (List.zipWith (fun seg v => seg ++ [Event.barrier v])
        segs e5Vars).flatten ∧
      ∀ (i : ℕ) (seg : List Event), segs[i]? = some seg →
        ∀ e ∈ seg, (∀ w : String, e ≠ Event.barrier w) ∧
          ∀ (jv : List String) (y : ℤ), e = Event.job jv y →
            jv = e5Vars.drop i :=
  downloadPasses_structure store locPath dtEnd e5Vars evs h

/-- Witness for C10: two variables over the single year 1940 on an empty
store; the second pass's job carries the list with the first variable
removed. -/
theorem c10_witness :
    download_era5 [] "d" ["a", "b"] ⟨1940, 0⟩ =
      .ok [Event.job ["a", "b"] 1940, Event.barrier "a",
           Event.job ["b"] 1940, Event.barrier "b"] ∧
    ∃ segs : List (List Event),
      segs.length = (["a", "b"] : List String).length ∧
      [Event.job ["a", "b"] 1940, Event.barrier "a",
       Event.job ["b"] 1940, Event.barrier "b"] =
        (List.zipWith (fun seg v => seg ++ [Event.barrier v])
          segs ["a", "b"]).flatten ∧
      ∀ (i : ℕ) (seg : List Event), segs[i]? = some seg →
        ∀ e ∈ seg, (∀ w : String, e ≠ Event.barrier w) ∧
          ∀ (jv : List String) (y : ℤ), e = Event.job jv y →
            jv = (["a", "b"] : List String).drop i :=
  ⟨by decide,
    c10_pass_structure [] "d" ["a", "b"] ⟨1940, 0⟩ _ (by decide)⟩

theorem stripSteps_final_untouched (allVars : List String) (year : ℤ) :
    ∀ (pending : List String) (fs : DlFS) (p : DlPath),
      (∀ w ∈ pending, p ≠ .canonical w year ∧ p ≠ .tempxds w year) →
      (stripSteps allVars year pending fs).2 p = fs p := by
  intro pending
  induction pending with
  | nil => intro fs p _; rfl
  | cons w rest ih =>
    intro fs p hp
    have h1 := (hp w (by simp)).1
    have h2 := (hp w (by simp)).2
    simp only [stripSteps]
    rw [ih _ p (fun w' hw' => hp w' (by simp [hw']))]
    simp [fsRename, fsSet, h1, h2]

theorem stripSteps_final_mem (allVars : List String) (year : ℤ) :
    ∀ (pending : List String) (fs : DlFS) (v : String), v ∈ pending →
      (stripSteps allVars year pending fs).2 (.canonical v year) =
        some (.single v) := by
  intro pending
  induction pending with
  | nil => intro fs v hv; simp at hv
  | cons w rest ih =>
    intro fs v hv
    simp only [stripSteps]
    by_cases hr : v ∈ rest
    · exact ih _ v hr
    · have hvw : v = w := by
        rcases List.mem_cons.mp hv with h | h
        · exact h
        · exact absurd h hr
      subst hvw
      rw [stripSteps_final_untouched allVars year rest _ (DlPath.canonical v year)
        (fun w' hw' =>
          ⟨(by intro hc; injection hc with hv1 hv2; exact hr (hv1 ▸ hw')),
           (by intro hc; cases hc)⟩)]
      simp [fsRename, fsSet]

theorem stripSteps_trace_mem (allVars : List String) (year : ℤ) :
    ∀ (pending : List String) (fs : DlFS) (v : String), v ∈ pending →
      ∃ i : ℕ, i < (stripSteps allVars year pending fs).1.length ∧
        ((stripSteps allVars year pending fs).1.getD i (fun _ => none))
          (.canonical v year) = some (.combined allVars) := by
  intro pending
  induction pending with
  | nil => intro fs v hv; simp at hv
  | cons w rest ih =>
    intro fs v hv
    rcases List.mem_cons.mp hv with hvw | hr
    · subst hvw
      refine ⟨0, ?_, ?_⟩
      · simp [stripSteps]
      · simp only [stripSteps, List.getD_cons_zero]
        simp [fsSet]
    · simp only [stripSteps]
      obtain ⟨i, hi, hval⟩ := ih
        (fsRename (.tempxds w year) (.canonical w year)
          (fsSet (.tempxds w year) (.single w)
            (fsSet (.canonical w year) (.combined allVars) fs))) v hr
      refine ⟨i + 1 + 1 + 1, ?_, ?_⟩
      · simp only [List.length_cons]
        omega
      · simp only [List.getD_cons_succ]
        exact hval

/-- C4 counterexample: with a single variable "a" for 1940, the state right
after the copy step (index 1, strictly before the job's last state) holds the
combined download at the canonical path, so the job does expose a file at the
canonical path before full success. -/
theorem c4_counterexample :
    (jobTrace ["a"] 1940).length = 5 ∧
    (1 + 1 < (jobTrace ["a"] 1940).length) ∧
    ((jobTrace ["a"] 1940).getD 1 (fun _ => none))
        (DlPath.canonical "a" 1940) = some (DlContent.combined ["a"]) := by
  refine ⟨rfl, by decide, ?_⟩
  simp [jobTrace, stripSteps, fsSet, fsRename]

/-- C4 amended: the download itself goes only to the `.tempdl` temporary (no
canonical path exists right after it), and on full success every canonical
path holds its stripped single-variable file with the combined temporary
removed; but publication is not atomic: for every variable there is an
intermediate state (after `shutil.copy`, before the strip's rename) in which
the combined multi-variable download is observable at that variable's
canonical path, so a crash there leaves the year's file present, not
absent. -/
theorem c4_job_materialization (vars : List String) (year : ℤ)
    (hne : vars ≠ []) :
    (∀ v : String,
      ((jobTrace vars year).headD (fun _ => none)) (.canonical v year) = none) ∧
    (∃ fsF : DlFS, (jobTrace vars year).getLast? = some fsF ∧
      (∀ v ∈ vars, fsF (.canonical v year) = some (.single v)) ∧
      fsF (.tempdl (vars.headD "") year) = none) ∧
    (∀ v ∈ vars, ∃ i : ℕ, i + 1 < (jobTrace vars year).length ∧
      ((jobTrace vars year).getD i (fun _ => none)) (.canonical v year) =
        some (.combined vars)) := by
  have hne' : vars ≠ [] := hne
  refine ⟨?_, ?_, ?_⟩
  · intro v
    simp [jobTrace, fsSet]
  · refine ⟨fsRemove (.tempdl (vars.headD "") year)
      (stripSteps vars year vars
        (fsSet (.tempdl (vars.headD "") year) (.combined vars)
          (fun _ => none))).2, ?_, ?_, ?_⟩
    · show (_ :: _ ++ [_] : List DlFS).getLast? = _
      rw [List.getLast?_concat]
    · intro v hv
      have hfin := stripSteps_final_mem vars year vars
        (fsSet (.tempdl (vars.headD "") year) (.combined vars)
          (fun _ => none)) v hv
      simp only [fsRemove]
      rw [if_neg (by intro hc; cases hc)]
      exact hfin
    · simp [fsRemove]
  · intro v hv
    obtain ⟨i, hi, hval⟩ := stripSteps_trace_mem vars year vars
      (fsSet (.tempdl (vars.headD "") year) (.combined vars)
        (fun _ => none)) v hv
    refine ⟨i + 1, ?_, ?_⟩
    · simp only [jobTrace, List.length_cons, List.length_append,
        List.length_singleton]
      omega
    · simp only [jobTrace]
      rw [List.getD_append _ _ _ _ (by simp only [List.length_cons]; omega)]
      simp only [List.getD_cons_succ]
      exact hval

/-- Witness for C4 (amended) at a concrete input: a two-variable job. -/
theorem c4_witness :
    ((["a", "b"] : List String) ≠ []) ∧
    ((∀ v : String,
      ((jobTrace ["a", "b"] 2000).headD (fun _ => none)) (.canonical v 2000) =
        none) ∧
    (∃ fsF : DlFS, (jobTrace ["a", "b"] 2000).getLast? = some fsF ∧
      (∀ v ∈ (["a", "b"] : List String),
        fsF (.canonical v 2000) = some (.single v)) ∧
      fsF (.tempdl ((["a", "b"] : List String).headD "") 2000) = none) ∧
    (∀ v ∈ (["a", "b"] : List String),
      ∃ i : ℕ, i + 1 < (jobTrace ["a", "b"] 2000).length ∧
        ((jobTrace ["a", "b"] 2000).getD i (fun _ => none)) (.canonical v 2000) =
          some (.combined ["a", "b"]))) :=
  ⟨by simp, c4_job_materialization ["a", "b"] 2000 (by simp)⟩

/-- C7: grid snapping computes `ceil(lat*4)/4` and `floor(lon*4)/4` and the
location name from `round(grid*100)`; on the input `(59.4385, -151.7150)` it
yields the cell `(59.5, -151.75)` and the name `5950N_-15175E`. -/
theorem c7_grid_snap :
    (∀ latN longE : ℚ,
      gridLatN latN = (⌈latN * 4⌉ : ℚ) / 4 ∧
      gridLongE longE = (⌊longE * 4⌋ : ℚ) / 4 ∧
      location_name latN longE =
        toString (round (gridLatN latN * 100)) ++ "N_" ++
          toString (round (gridLongE longE * 100)) ++ "E") ∧
    gridLatN (594385 / 10000) = 59.5 ∧
    gridLongE (-1517150 / 10000) = -151.75 ∧
    location_name (594385 / 10000) (-1517150 / 10000) = "5950N_-15175E" := by
  have hceil : ⌈(594385 : ℚ) / 10000 * 4⌉ = (238 : ℤ) := by
    rw [Int.ceil_eq_iff] <;> norm_num
  have hfloor : ⌊(-1517150 : ℚ) / 10000 * 4⌋ = (-607 : ℤ) := by
    rw [Int.floor_eq_iff] <;> norm_num
  refine ⟨fun latN longE => ⟨rfl, rfl, rfl⟩, ?_, ?_, ?_⟩
  · unfold gridLatN
    rw [hceil]; norm_num
  · unfold gridLongE
    rw [hfloor]; norm_num
  · unfold location_name gridLatN gridLongE
    rw [hceil, hfloor]
    have h1 : round (((238 : ℤ) : ℚ) / 4 * 100) = (5950 : ℤ) := by
      rw [round_eq, Int.floor_eq_iff] <;> norm_num
    have h2 : round (((-607 : ℤ) : ℚ) / 4 * 100) = (-15175 : ℤ) := by
      rw [round_eq, Int.floor_eq_iff] <;> norm_num
    rw [h1, h2]
    decide

/-- Witness for C8: a concrete corrupt entry at the canonical 2020 path. -/
theorem c8_witness :
    List.lookup (destPath "d" "t2m" 2020)
        [(destPath "d" "t2m" 2020, Entry.corrupt 9000)] =
      some (Entry.corrupt 9000) ∧
    ((∃ e : Fatal,
        download_is_complete [(destPath "d" "t2m" 2020, Entry.corrupt 9000)]
            (destPath "d" "t2m" 2020) 2020 ⟨2021, 0⟩ = .error e ∧
        e.msg = "Existing output " ++ destPath "d" "t2m" 2020 ++
          " could not be opened!" ∧
        e.code ≠ 0) ∧
     (∃ e : Fatal,
        open_nc_ro [(destPath "d" "t2m" 2020, Entry.corrupt 9000)] "d" "t2m" 2020 =
          .error e ∧
        e.msg = "Existing output " ++ destPath "d" "t2m" 2020 ++
          " could not be opened!" ∧
        e.code ≠ 0)) :=
  ⟨by decide,
    c8_corrupt_file_fatal [(destPath "d" "t2m" 2020, Entry.corrupt 9000)]
      "d" "t2m" 2020 2020 ⟨2021, 0⟩ 9000 (by decide)⟩

end E5Tool
